import Mathlib

/-!
Verification of the RDSS OAI-PMH adaptor harvest pipeline (`run.py`).

The development shallowly embeds `run.py`.  External collaborators
(EPrints client, DynamoDB client, Kinesis client, S3 client, download
client, message generator, message validator) live outside `src/` and are
modelled as an oracle structure `Env`; every observable call made by the
code under verification is recorded as an `Event` in a trace.  Python
exceptions are modelled with `Except` over the `Exc` type; the only
exception class the source discriminates on is `FileNotFoundError`, so
`Exc` distinguishes that kind from all others.

The Python `json` standard-library functions `json.loads` / `json.dumps`
are embedded concretely (`loads` / `dumps` below): a recursive-descent
JSON parser over `List Char` and a serializer matching Python's default
`json.dumps` output conventions (separators `", "` and `": "`,
`ensure_ascii` escaping).  Number normalization on re-serialization is out
of scope: `jnum` stores the raw lexeme and `dumps` re-emits it.
-/

/-- Python exception value: the source catches `FileNotFoundError`
specially (in `_push_files_to_s3`); every other exception class is
handled uniformly, so it is enough to distinguish those two kinds.
The payload is the exception text, i.e. Python's `str(e)`. -/
inductive Exc where
  | fileNotFound (msg : String)
  | generic (msg : String)
deriving Repr, DecidableEq

/-- Python `str(e)` on a caught exception. -/
def Exc.str : Exc → String
  | .fileNotFound m => m
  | .generic m => m

/-- JSON values, as produced by `json.loads`.  Objects keep insertion
order like Python dicts; `jnum` stores the raw numeric lexeme. -/
inductive JVal where
  | jnull
  | jbool (b : Bool)
  | jnum (raw : String)
  | jstr (s : String)
  | jarr (elems : List JVal)
  | jobj (fields : List (String × JVal))

/-- JSON whitespace. -/
def isJsonWs (c : Char) : Bool :=
  c = ' ' || c = '\t' || c = '\n' || c = '\r'

/-- Drop leading JSON whitespace. -/
def skipWs : List Char → List Char
  | [] => []
  | c :: cs => if isJsonWs c then skipWs cs else c :: cs

/-- Value of a hex digit, if any. -/
def hexVal (c : Char) : Option Nat :=
  if '0' ≤ c ∧ c ≤ '9' then some (c.toNat - '0'.toNat)
  else if 'a' ≤ c ∧ c ≤ 'f' then some (c.toNat - 'a'.toNat + 10)
  else if 'A' ≤ c ∧ c ≤ 'F' then some (c.toNat - 'A'.toNat + 10)
  else none

/-- Body of a JSON string literal, after the opening quote.  Returns the
decoded characters and the remaining input after the closing quote.
`strict=False` in the source permits raw control characters, so every
character other than `"` and `\` is accepted verbatim.  Lone surrogate
halves from `\u` escapes are not recombined. -/
def parseStringBody : List Char → Option (List Char × List Char)
  | [] => none
  | '"' :: cs => some ([], cs)
  | '\\' :: e :: cs =>
    match e with
    | '"' => (parseStringBody cs).map (fun p => ('"' :: p.1, p.2))
    | '\\' => (parseStringBody cs).map (fun p => ('\\' :: p.1, p.2))
    | '/' => (parseStringBody cs).map (fun p => ('/' :: p.1, p.2))
    | 'b' => (parseStringBody cs).map (fun p => (Char.ofNat 8 :: p.1, p.2))
    | 'f' => (parseStringBody cs).map (fun p => (Char.ofNat 12 :: p.1, p.2))
    | 'n' => (parseStringBody cs).map (fun p => ('\n' :: p.1, p.2))
    | 'r' => (parseStringBody cs).map (fun p => ('\r' :: p.1, p.2))
    | 't' => (parseStringBody cs).map (fun p => ('\t' :: p.1, p.2))
    | 'u' =>
      match cs with
      | a :: b :: c :: d :: cs' =>
        match hexVal a, hexVal b, hexVal c, hexVal d with
        | some va, some vb, some vc, some vd =>
          let n := ((va * 16 + vb) * 16 + vc) * 16 + vd
          (parseStringBody cs').map (fun p => (Char.ofNat n :: p.1, p.2))
        | _, _, _, _ => none
      | _ => none
    | _ => none
  | '\\' :: [] => none
  | c :: cs => (parseStringBody cs).map (fun p => (c :: p.1, p.2))

/-- Longest prefix of decimal digits. -/
def takeDigits : List Char → List Char × List Char
  | [] => ([], [])
  | c :: cs =>
    if c.isDigit then
      let p := takeDigits cs
      (c :: p.1, p.2)
    else ([], c :: cs)

/-- Optional fraction part of a JSON number. -/
def parseFrac : List Char → Option (List Char × List Char)
  | '.' :: t =>
    match takeDigits t with
    | ([], _) => none
    | (ds, r) => some ('.' :: ds, r)
  | cs => some ([], cs)

/-- Optional exponent part of a JSON number. -/
def parseExp : List Char → Option (List Char × List Char)
  | c :: t =>
    if c = 'e' || c = 'E' then
      let p : List Char × List Char :=
        match t with
        | s :: t' => if s = '+' || s = '-' then ([s], t') else ([], s :: t')
        | [] => ([], [])
      match takeDigits p.2 with
      | ([], _) => none
      | (ds, r) => some (c :: (p.1 ++ ds), r)
    else some ([], c :: t)
  | [] => some ([], [])

/-- A JSON number lexeme (sign, integer part, fraction, exponent),
returned raw.  Slightly laxer than Python on leading zeros, which no
statement below depends on. -/
def parseNumber (cs : List Char) : Option (List Char × List Char) :=
  let p : List Char × List Char :=
    match cs with
    | '-' :: t => (['-'], t)
    | _ => ([], cs)
  match takeDigits p.2 with
  | ([], _) => none
  | (ds, r1) =>
    match parseFrac r1 with
    | none => none
    | some (fs, r2) =>
      match parseExp r2 with
      | none => none
      | some (es, r3) => some (p.1 ++ ds ++ fs ++ es, r3)

/-- Python-dict insertion: replace the value at an existing key in place,
otherwise append the binding at the end. -/
def setKey : List (String × JVal) → String → JVal → List (String × JVal)
  | [], k, v => [(k, v)]
  | (k', v') :: rest, k, v =>
    if k' = k then (k', v) :: rest else (k', v') :: setKey rest k v

/-- First value bound to a key, Python `d[k]` / `k in d`. -/
def lookupJ : List (String × JVal) → String → Option JVal
  | [], _ => none
  | (k', v) :: rest, k => if k' = k then some v else lookupJ rest k

/-- Python-dict duplicate-key semantics for a parsed pair list: later
bindings overwrite earlier ones, keeping the first position. -/
def dedupKeys (ps : List (String × JVal)) : List (String × JVal) :=
  ps.foldl (fun acc p => setKey acc p.1 p.2) []

mutual

/-- Recursive-descent JSON value parser (fuelled).  Mirrors what
`json.loads(s, strict=False)` accepts, including the CPython constants
`NaN`, `Infinity` and `-Infinity`. -/
def parseVal : Nat → List Char → Option (JVal × List Char)
  | 0, _ => none
  | fuel + 1, cs =>
    match skipWs cs with
    | 'n' :: 'u' :: 'l' :: 'l' :: r => some (.jnull, r)
    | 't' :: 'r' :: 'u' :: 'e' :: r => some (.jbool true, r)
    | 'f' :: 'a' :: 'l' :: 's' :: 'e' :: r => some (.jbool false, r)
    | 'N' :: 'a' :: 'N' :: r => some (.jnum "NaN", r)
    | 'I' :: 'n' :: 'f' :: 'i' :: 'n' :: 'i' :: 't' :: 'y' :: r =>
      some (.jnum "Infinity", r)
    | '-' :: 'I' :: 'n' :: 'f' :: 'i' :: 'n' :: 'i' :: 't' :: 'y' :: r =>
      some (.jnum "-Infinity", r)
    | '"' :: r =>
      (parseStringBody r).map (fun p => (.jstr (String.mk p.1), p.2))
    | '[' :: r => parseArrItems fuel r
    | '\x7b' :: r => parseObjItems fuel r
    | cs' =>
      (parseNumber cs').map (fun p => (.jnum (String.mk p.1), p.2))

/-- Elements of an array, after the opening bracket. -/
def parseArrItems : Nat → List Char → Option (JVal × List Char)
  | 0, _ => none
  | fuel + 1, cs =>
    match skipWs cs with
    | ']' :: r => some (.jarr [], r)
    | cs' =>
      match parseVal fuel cs' with
      | none => none
      | some (v, r) =>
        match parseArrRest fuel r with
        | none => none
        | some (vs, r') => some (.jarr (v :: vs), r')

/-- Continuation of an array after one parsed element. -/
def parseArrRest : Nat → List Char → Option (List JVal × List Char)
  | 0, _ => none
  | fuel + 1, cs =>
    match skipWs cs with
    | ']' :: r => some ([], r)
    | ',' :: r =>
      match parseVal fuel r with
      | none => none
      | some (v, r') =>
        match parseArrRest fuel r' with
        | none => none
        | some (vs, r'') => some (v :: vs, r'')
    | _ => none

/-- Members of an object, after the opening brace. -/
def parseObjItems : Nat → List Char → Option (JVal × List Char)
  | 0, _ => none
  | fuel + 1, cs =>
    match skipWs cs with
    | '\x7d' :: r => some (.jobj [], r)
    | '"' :: r =>
      match parseStringBody r with
      | none => none
      | some (k, r1) =>
        match skipWs r1 with
        | ':' :: r2 =>
          match parseVal fuel r2 with
          | none => none
          | some (v, r3) =>
            match parseObjRest fuel r3 with
            | none => none
            | some (ps, r4) =>
              some (.jobj (dedupKeys ((String.mk k, v) :: ps)), r4)
        | _ => none
    | _ => none

/-- Continuation of an object after one parsed member. -/
def parseObjRest : Nat → List Char → Option (List (String × JVal) × List Char)
  | 0, _ => none
  | fuel + 1, cs =>
    match skipWs cs with
    | '\x7d' :: r => some ([], r)
    | ',' :: r =>
      match skipWs r with
      | '"' :: r1 =>
        match parseStringBody r1 with
        | none => none
        | some (k, r2) =>
          match skipWs r2 with
          | ':' :: r3 =>
            match parseVal fuel r3 with
            | none => none
            | some (v, r4) =>
              match parseObjRest fuel r4 with
              | none => none
              | some (ps, r5) => some ((String.mk k, v) :: ps, r5)
          | _ => none
      | _ => none
    | _ => none

end

/-- `json.loads(s, strict=False)`: parse a complete document, requiring
only trailing whitespace after the value. -/
def loads (s : String) : Option JVal :=
  let cs := s.toList
  match parseVal (cs.length + 1) cs with
  | none => none
  | some (v, rest) => if skipWs rest = [] then some v else none

/-- Lower-case hex digit. -/
def hexDigit (n : Nat) : Char :=
  if n < 10 then Char.ofNat ('0'.toNat + n) else Char.ofNat ('a'.toNat + n - 10)

/-- Four lower-case hex digits. -/
def hex4 (n : Nat) : List Char :=
  [hexDigit (n / 4096 % 16), hexDigit (n / 256 % 16),
   hexDigit (n / 16 % 16), hexDigit (n % 16)]

/-- `\uXXXX` escape, emitting a surrogate pair for astral code points,
as CPython's `json.dumps` does with `ensure_ascii=True` (the default
used by the source). -/
def uEscape (n : Nat) : List Char :=
  if n ≤ 0xFFFF then '\\' :: 'u' :: hex4 n
  else
    ('\\' :: 'u' :: hex4 (0xD800 + (n - 0x10000) / 0x400)) ++
    ('\\' :: 'u' :: hex4 (0xDC00 + (n - 0x10000) % 0x400))

/-- Escape one character the way `json.dumps` (default options) does:
short escapes for the JSON control escapes, `\uXXXX` for the remaining
characters outside `0x20`–`0x7e`. -/
def escapeChar (c : Char) : List Char :=
  if c = '"' then ['\\', '"']
  else if c = '\\' then ['\\', '\\']
  else if c = '\n' then ['\\', 'n']
  else if c = '\r' then ['\\', 'r']
  else if c = '\t' then ['\\', 't']
  else if c.toNat = 8 then ['\\', 'b']
  else if c.toNat = 12 then ['\\', 'f']
  else if c.toNat < 32 || 126 < c.toNat then uEscape c.toNat
  else [c]

/-- `json.dumps` applied to a Python `str`. -/
def encodeJString (s : String) : String :=
  String.mk ('"' :: s.toList.foldr (fun c acc => escapeChar c ++ acc) ['"'])

mutual

/-- `json.dumps` with CPython's default separators `", "` / `": "`. -/
def dumps : JVal → String
  | .jnull => "null"
  | .jbool true => "true"
  | .jbool false => "false"
  | .jnum raw => raw
  | .jstr s => encodeJString s
  | .jarr vs => "[" ++ dumpsArr vs ++ "]"
  | .jobj fs => "\x7b" ++ dumpsObj fs ++ "\x7d"

/-- Comma-joined array elements. -/
def dumpsArr : List JVal → String
  | [] => ""
  | [v] => dumps v
  | v :: vs => dumps v ++ ", " ++ dumpsArr vs

/-- Comma-joined object members. -/
def dumpsObj : List (String × JVal) → String
  | [] => ""
  | [(k, v)] => encodeJString k ++ ": " ++ dumps v
  | (k, v) :: fs => encodeJString k ++ ": " ++ dumps v ++ ", " ++ dumpsObj fs

end

example : loads "null" = some .jnull := by rfl
example : loads "  \x7b \x7d " = some (.jobj []) := by rfl
example : loads "xx" = none := by rfl
example : dumps (.jobj [("a", .jstr "b")]) = "\x7b\"a\": \"b\"\x7d" := by rfl
example :
    loads "\x7b\"messageHeader\": \x7b\x7d\x7d" =
      some (.jobj [("messageHeader", .jobj [])]) := by rfl
example : encodeJString "boom" = "\"boom\"" := by rfl
example : loads "[1, 2.5e3]" = some (.jarr [.jnum "1", .jnum "2.5e3"]) := by rfl

/-!
## Embedding of `run.py`

Each embedded function returns its result together with the list of
observable calls it made, in order.  Callers prepend/append their own
events around callee traces, so a function's trace is exactly the
sequence of external calls the Python code performs, including calls
made before an exception was raised.
-/

/-- Python `str.startswith`, over character lists (`String.startsWith`
itself is byte-position based and does not reduce definitionally). -/
def startsWithStr (s p : String) : Bool :=
  p.toList.isPrefixOf s.toList

/-- An EPrints record as consumed by `run.py`:
`record['header']['identifier']`, `record['header']['datestamp']` and
`record['metadata']['identifier']` (the list of metadata identifier
values, which may be plain text or file URLs). -/
structure Record where
  identifier : String
  datestamp : String
  metadataIdentifiers : List String
deriving Repr, DecidableEq

/-- Observable calls made by `run.py` on its collaborators, plus the two
warning logs the spec singles out. -/
inductive Event where
  | downloadAttempt (url : String)
  | s3Push (url : String) (path : String)
  | warnRemoveFailed (path : String)
  | warnDownloadFailed (url : String)
  | putMessage (msg : String)
  | putInvalid (msg : Option String)
  | decorateCall (msg : Option String) (code : String) (reason : String)
  | outcomeWrite (id : String) (msg : String) (status : String) (reason : String)
  | watermarkWrite (ts : String)
  | processStart (id : String)
  | poisonPill
  | validatorShutdown
deriving Repr, DecidableEq

/-- Durable-state-store writes. -/
def Event.isStore : Event → Bool
  | .outcomeWrite .. => true
  | .watermarkWrite _ => true
  | _ => false

/-- Harvest-driver-level events (not produced while a single record is
inside the gates of `_process_record`'s `try` block). -/
def Event.isCtl : Event → Bool
  | .processStart _ => true
  | .poisonPill => true
  | .validatorShutdown => true
  | _ => false

/-- Events emitted only by the driver or the outcome/watermark writes. -/
def Event.isDriver : Event → Bool
  | .outcomeWrite .. => true
  | .watermarkWrite _ => true
  | .processStart _ => true
  | .poisonPill => true
  | .validatorShutdown => true
  | _ => false

/-- Shutdown-marker event recognizer. -/
def Event.isPoison : Event → Bool
  | .poisonPill => true
  | _ => false

/-- Validator-release event recognizer. -/
def Event.isValidatorShutdown : Event → Bool
  | .validatorShutdown => true
  | _ => false

/-- Record-loop entry recognizer. -/
def Event.isProcessStart : Event → Bool
  | .processStart _ => true
  | _ => false

/-- S3 upload recognizer. -/
def Event.isS3Push : Event → Bool
  | .s3Push .. => true
  | _ => false

/-- Behaviour of the external collaborators of `run.py` (all defined
outside `src/`, in the `app` package and AWS/stdlib): each field is the
result the collaborator returns, `Except Exc` where the call can raise.
`jsonDecodeError` is the text of the `JSONDecodeError` that
`json.loads` raises on its argument when parsing fails. -/
structure Env where
  fetch_processed_status : String → Option String
  download_file : String → Option String
  push_to_bucket : String → String → Except Exc String
  remove_file : String → Except Exc Unit
  generate_metadata_create : Record → List String → Except Exc String
  jsonDecodeError : String → String
  validate_message : String → Except Exc Unit
  put_message_on_queue : String → Except Exc Unit
  put_invalid_message_on_queue : Option String → Except Exc Unit
  update_processed_record : String → String → String → String → Except Exc Unit
  update_high_watermark : String → Except Exc Unit
  fetch_high_watermark : Option String
  now : String
  fetch_records_from : String → List Record
  flow_limit : Nat
  put_poison_result : Except Exc Unit
  validator_shutdown_result : Except Exc Unit

/-- `_record_success_filter(record)`: look up the processed status for
the record's identifier, return `False` exactly when it equals
`'Success'` (a missing status is Python `None`, which compares unequal
to `'Success'`). -/
def _record_success_filter (env : Env) (record : Record) : Bool :=
  match env.fetch_processed_status record.identifier with
  | some status => if status = "Success" then false else true
  | none => true

/-- Loop body of `_push_files_to_s3`: iterate the metadata identifiers;
for HTTP(S) URLs download (`None` result logs a warning and skips the
file), push to S3 (collecting the returned location), then `os.remove`
the local copy, swallowing only `FileNotFoundError`.  Any exception from
the S3 push or a non-`FileNotFoundError` removal error propagates. -/
def pushLoop (env : Env) : List String → Except Exc (List String) × List Event
  | [] => (.ok [], [])
  | u :: rest =>
    if startsWithStr u "http://" || startsWithStr u "https://" then
      match env.download_file u with
      | some path =>
        (match env.push_to_bucket u path with
         | .error e => (.error e, [.downloadAttempt u, .s3Push u path])
         | .ok loc =>
           match env.remove_file path with
           | .ok _ =>
             ((pushLoop env rest).1.map (loc :: ·),
              .downloadAttempt u :: .s3Push u path :: (pushLoop env rest).2)
           | .error (.fileNotFound _) =>
             ((pushLoop env rest).1.map (loc :: ·),
              .downloadAttempt u :: .s3Push u path ::
                .warnRemoveFailed path :: (pushLoop env rest).2)
           | .error e => (.error e, [.downloadAttempt u, .s3Push u path]))
      | none =>
        ((pushLoop env rest).1,
         .downloadAttempt u :: .warnDownloadFailed u :: (pushLoop env rest).2)
    else pushLoop env rest

/-- `_push_files_to_s3(record)`. -/
def _push_files_to_s3 (env : Env) (record : Record) :
    Except Exc (List String) × List Event :=
  pushLoop env record.metadataIdentifiers

/-- `_decorate_message_with_error(message, error_code, error_message)`.
`json.loads(None)` raises `TypeError`, which the function's own
`except` catches, returning the message unchanged; an unparseable
string likewise comes back unchanged (with a logged warning).  A parsed
non-dict value, or a `messageHeader` bound to a non-dict, hits an
item-assignment `TypeError` that escapes the function.  Note the stored
`errorMessage` is `json.dumps(error_message)`, i.e. the JSON-quoted
text, not the bare text. -/
def _decorate_message_with_error (message : Option String)
    (error_code error_message : String) : Except Exc (Option String) :=
  match message with
  | none => .ok none
  | some m =>
    match loads m with
    | none => .ok (some m)
    | some (.jobj fs) =>
      let fs1 :=
        if (lookupJ fs "messageHeader").isSome then fs
        else setKey fs "messageHeader" (.jobj [])
      match lookupJ fs1 "messageHeader" with
      | some (.jobj hs) =>
        let hs1 :=
          setKey (setKey hs "errorCode" (.jstr error_code))
            "errorMessage" (.jstr (encodeJString error_message))
        .ok (some (dumps (.jobj (setKey fs1 "messageHeader" (.jobj hs1)))))
      | _ => .error (.generic "TypeError")
    | some _ => .error (.generic "TypeError")

/-- The `try` block of `_process_record`: relocate files, generate the
message, round-trip it through `json.loads`/`json.dumps` (failure tags
`GENERR007`), validate it (failure tags `GENERR001`), put it on the
queue.  An error carries the Python state at the raise: the `err_code`
assigned so far (if any), the current value of `message` (if any), and
the exception. -/
def tryBody (env : Env) (record : Record) :
    Except (Option String × Option String × Exc) String × List Event :=
  match _push_files_to_s3 env record with
  | (.error e, tr) => (.error (none, none, e), tr)
  | (.ok s3_objects, tr) =>
    match env.generate_metadata_create record s3_objects with
    | .error e => (.error (none, none, e), tr)
    | .ok m0 =>
      match loads m0 with
      | none =>
        (.error (some "GENERR007", some m0, .generic (env.jsonDecodeError m0)), tr)
      | some v =>
        let m1 := dumps v
        match env.validate_message m1 with
        | .error e => (.error (some "GENERR001", some m1, e), tr)
        | .ok _ =>
          match env.put_message_on_queue m1 with
          | .error e => (.error (none, some m1, e), tr ++ [.putMessage m1])
          | .ok _ => (.ok m1, tr ++ [.putMessage m1])

/-- `message if message is not None and len(message) > 0 else '-'`:
the value stored in the processed-record table. -/
def storedOf : Option String → String
  | some m => if 0 < m.length then m else "-"
  | none => "-"

/-- Tail of `_process_record` continued: the two durable-state writes. -/
def finishRecord (env : Env) (record : Record) (message : Option String)
    (status reason : String) : Except Exc Unit × List Event :=
  match env.update_processed_record record.identifier (storedOf message)
      status reason with
  | .error e =>
    (.error e, [.outcomeWrite record.identifier (storedOf message) status reason])
  | .ok _ =>
    match env.update_high_watermark record.datestamp with
    | .error e =>
      (.error e, [.outcomeWrite record.identifier (storedOf message) status reason,
                  .watermarkWrite record.datestamp])
    | .ok _ =>
      (.ok (), [.outcomeWrite record.identifier (storedOf message) status reason,
                .watermarkWrite record.datestamp])

/-- `_process_record(record)`. On a gate failure: default the error code
to `GENERR009`, take the exception text as the reason, decorate the
message and publish it on the invalid-message queue, then (as on
success) write the outcome and the watermark. -/
def _process_record (env : Env) (record : Record) :
    Except Exc Unit × List Event :=
  match tryBody env record with
  | (.ok m1, tr) =>
    ((finishRecord env record (some m1) "Success" "-").1,
     tr ++ (finishRecord env record (some m1) "Success" "-").2)
  | (.error (ec, msg, e), tr) =>
    let code := ec.getD "GENERR009"
    let reason := e.str
    match _decorate_message_with_error msg code reason with
    | .error e2 => (.error e2, tr ++ [.decorateCall msg code reason])
    | .ok msg2 =>
      match env.put_invalid_message_on_queue msg2 with
      | .error e3 =>
        (.error e3, tr ++ [.decorateCall msg code reason, .putInvalid msg2])
      | .ok _ =>
        ((finishRecord env record msg2 "Failure" reason).1,
         tr ++ [.decorateCall msg code reason, .putInvalid msg2] ++
           (finishRecord env record msg2 "Failure" reason).2)

/-- `_shutdown()`: put the poison pill on the primary queue if the
Kinesis client is set, then shut the validator down if it is set.  The
presence flags model the globals still being `None` (e.g. when
initialisation never ran). -/
def _shutdown (env : Env) (kinesisPresent validatorPresent : Bool) :
    Except Exc Unit × List Event :=
  if kinesisPresent then
    match env.put_poison_result with
    | .error e => (.error e, [.poisonPill])
    | .ok _ =>
      if validatorPresent then
        match env.validator_shutdown_result with
        | .error e => (.error e, [.poisonPill, .validatorShutdown])
        | .ok _ => (.ok (), [.poisonPill, .validatorShutdown])
      else (.ok (), [.poisonPill])
  else
    if validatorPresent then
      match env.validator_shutdown_result with
      | .error e => (.error e, [.validatorShutdown])
      | .ok _ => (.ok (), [.validatorShutdown])
    else (.ok (), [])

/-- The record loop of `main`: log the record and process it; an
exception from `_process_record` aborts the loop and propagates. -/
def mainLoop (env : Env) : List Record → Except Exc Unit × List Event
  | [] => (.ok (), [])
  | r :: rest =>
    match _process_record env r with
    | (.ok _, tr) =>
      ((mainLoop env rest).1,
       .processStart r.identifier :: (tr ++ (mainLoop env rest).2))
    | (.error e, tr) => (.error e, .processStart r.identifier :: tr)

/-- `main` after the watermark is established: fetch the records since
the watermark, drop already-succeeded ones, truncate to the flow limit
(`itertools.islice` over the lazy filter), process each survivor, then
shut down.  All clients are initialised by this point. -/
def mainAfterWatermark (env : Env) (start : String) (tr0 : List Event) :
    Except Exc Unit × List Event :=
  let records := env.fetch_records_from start
  let selected := (records.filter (_record_success_filter env)).take env.flow_limit
  match mainLoop env selected with
  | (.error e, tr) => (.error e, tr0 ++ tr)
  | (.ok _, tr) =>
    ((_shutdown env true true).1, tr0 ++ tr ++ (_shutdown env true true).2)

/-- `main()` (named `runMain` since Lean reserves `main` for an entry
point): bootstrap the high watermark on first run (persisting
`datetime.now()` immediately), then run the harvest. -/
def runMain (env : Env) : Except Exc Unit × List Event :=
  match env.fetch_high_watermark with
  | some start => mainAfterWatermark env start []
  | none =>
    match env.update_high_watermark env.now with
    | .error e => (.error e, [.watermarkWrite env.now])
    | .ok _ => mainAfterWatermark env env.now [.watermarkWrite env.now]

/-- The `if __name__ == '__main__'` block: run `main`; on an unhandled
exception, log it and run `_shutdown` (all clients are set by the time
anything in the model can raise, since client construction itself is
modelled as pure). -/
def mainGuarded (env : Env) : Except Exc Unit × List Event :=
  match runMain env with
  | (.ok _, tr) => (.ok (), tr)
  | (.error _, tr) =>
    ((_shutdown env true true).1, tr ++ (_shutdown env true true).2)

/-!
## Concrete environments for witnesses and sanity checks
-/

/-- A record with no metadata identifiers. -/
def recA : Record := ⟨"oai:eprints:1", "2018-01-01T00:00:00Z", []⟩

/-- A record with one file URL and one plain-text metadata identifier. -/
def recB : Record :=
  ⟨"oai:eprints:2", "2018-01-02T00:00:00Z",
   ["https://eprints.example/file.pdf", "Smith 2017, Some Article"]⟩

/-- An environment where every collaborator call succeeds. -/
def envA : Env where
  fetch_processed_status := fun _ => none
  download_file := fun _ => some "/tmp/file.pdf"
  push_to_bucket := fun u _ => .ok ("s3://bucket/" ++ u)
  remove_file := fun _ => .ok ()
  generate_metadata_create := fun _ _ => .ok "\x7b\"messageHeader\": \x7b\x7d\x7d"
  jsonDecodeError := fun _ => "Expecting value: line 1 column 1 (char 0)"
  validate_message := fun _ => .ok ()
  put_message_on_queue := fun _ => .ok ()
  put_invalid_message_on_queue := fun _ => .ok ()
  update_processed_record := fun _ _ _ _ => .ok ()
  update_high_watermark := fun _ => .ok ()
  fetch_high_watermark := some "2017-12-31T00:00:00Z"
  now := "2018-06-01T00:00:00Z"
  fetch_records_from := fun _ => [recA]
  flow_limit := 5
  put_poison_result := .ok ()
  validator_shutdown_result := .ok ()

example :
    _process_record envA recA =
      (.ok (), [.putMessage "\x7b\"messageHeader\": \x7b\x7d\x7d",
                .outcomeWrite "oai:eprints:1" "\x7b\"messageHeader\": \x7b\x7d\x7d"
                  "Success" "-",
                .watermarkWrite "2018-01-01T00:00:00Z"]) := by rfl

example :
    _push_files_to_s3 envA recB =
      (.ok ["s3://bucket/https://eprints.example/file.pdf"],
       [.downloadAttempt "https://eprints.example/file.pdf",
        .s3Push "https://eprints.example/file.pdf" "/tmp/file.pdf"]) := by rfl

/-!
## Trace-hygiene lemmas
-/

theorem pushLoop_not_driver (env : Env) (ids : List String) :
    ∀ e ∈ (pushLoop env ids).2, e.isDriver = false := by
  induction ids with
  | nil => intro e he; simp [pushLoop] at he
  | cons u rest ih =>
    intro e he
    simp only [pushLoop] at he
    split at he
    · split at he
      · split at he
        · simp only [List.mem_cons, List.mem_singleton, List.not_mem_nil,
            or_false] at he
          rcases he with rfl | rfl <;> rfl
        · split at he
          · simp only [List.mem_cons] at he
            rcases he with rfl | rfl | he
            · rfl
            · rfl
            · exact ih e he
          · simp only [List.mem_cons] at he
            rcases he with rfl | rfl | rfl | he
            · rfl
            · rfl
            · rfl
            · exact ih e he
          · simp only [List.mem_cons, List.mem_singleton, List.not_mem_nil,
              or_false] at he
            rcases he with rfl | rfl <;> rfl
      · simp only [List.mem_cons] at he
        rcases he with rfl | rfl | he
        · rfl
        · rfl
        · exact ih e he
    · exact ih e he

theorem tryBody_not_driver (env : Env) (r : Record) :
    ∀ e ∈ (tryBody env r).2, e.isDriver = false := by
  have hp := pushLoop_not_driver env r.metadataIdentifiers
  intro e he
  unfold tryBody _push_files_to_s3 at he
  rcases hps : pushLoop env r.metadataIdentifiers with ⟨res, tr⟩
  rw [hps] at he hp
  rcases res with e' | s3
  · exact hp e he
  · simp only at he
    split at he
    · exact hp e he
    · split at he
      · exact hp e he
      · split at he
        · exact hp e he
        · split at he
          · simp only [List.mem_append, List.mem_singleton] at he
            rcases he with he | rfl
            · exact hp e he
            · rfl
          · simp only [List.mem_append, List.mem_singleton] at he
            rcases he with he | rfl
            · exact hp e he
            · rfl

theorem Event.store_eq_false_of_driver {e : Event} (h : e.isDriver = false) :
    e.isStore = false := by
  cases e <;> simp_all [Event.isDriver, Event.isStore]

theorem Event.ctl_eq_false_of_driver {e : Event} (h : e.isDriver = false) :
    e.isCtl = false := by
  cases e <;> simp_all [Event.isDriver, Event.isCtl]

theorem finishRecord_trace (env : Env) (r : Record) (msg : Option String)
    (st rsn : String) :
    (finishRecord env r msg st rsn).2 =
      [Event.outcomeWrite r.identifier (storedOf msg) st rsn] ∨
    (finishRecord env r msg st rsn).2 =
      [Event.outcomeWrite r.identifier (storedOf msg) st rsn,
       Event.watermarkWrite r.datestamp] := by
  unfold finishRecord
  split
  · exact Or.inl rfl
  · split
    · exact Or.inr rfl
    · exact Or.inr rfl

theorem finishRecord_ok (env : Env) (r : Record) (msg : Option String)
    (st rsn : String) (h : (finishRecord env r msg st rsn).1 = .ok ()) :
    (finishRecord env r msg st rsn).2 =
      [Event.outcomeWrite r.identifier (storedOf msg) st rsn,
       Event.watermarkWrite r.datestamp] := by
  unfold finishRecord at h ⊢
  split at h
  · simp at h
  · split at h
    · simp at h
    · rfl

theorem process_record_not_ctl (env : Env) (r : Record) :
    ∀ e ∈ (_process_record env r).2, e.isCtl = false := by
  intro e he
  have hd := tryBody_not_driver env r
  unfold _process_record at he
  rcases htb : tryBody env r with ⟨res, tr⟩
  rw [htb] at he hd
  rcases res with ⟨ec, msg, ex⟩ | m1
  · simp only at he
    rcases hdec : _decorate_message_with_error msg (ec.getD "GENERR009") ex.str
      with e2 | msg2 <;> rw [hdec] at he <;> simp only at he
    · simp only [List.mem_append, List.mem_singleton] at he
      rcases he with he | rfl
      · exact Event.ctl_eq_false_of_driver (hd e he)
      · rfl
    · rcases hpi : env.put_invalid_message_on_queue msg2 with e3 | u <;>
        rw [hpi] at he <;> simp only at he
      · simp only [List.mem_append, List.mem_cons, List.mem_singleton,
          List.not_mem_nil, or_false] at he
        rcases he with he | rfl | rfl
        · exact Event.ctl_eq_false_of_driver (hd e he)
        · rfl
        · rfl
      · rcases finishRecord_trace env r msg2 "Failure" ex.str with hf | hf <;>
          rw [hf] at he <;>
          simp only [List.append_assoc, List.mem_append, List.mem_cons,
            List.mem_singleton, List.not_mem_nil, or_false] at he
        · rcases he with he | (rfl | rfl) | rfl
          · exact Event.ctl_eq_false_of_driver (hd e he)
          · rfl
          · rfl
          · rfl
        · rcases he with he | (rfl | rfl) | rfl | rfl
          · exact Event.ctl_eq_false_of_driver (hd e he)
          · rfl
          · rfl
          · rfl
          · rfl
  · simp only [List.mem_append] at he
    rcases he with he | he
    · exact Event.ctl_eq_false_of_driver (hd e he)
    · rcases finishRecord_trace env r (some m1) "Success" "-" with hf | hf <;>
        rw [hf] at he <;> simp only [List.mem_cons, List.mem_singleton,
          List.not_mem_nil, or_false] at he
      · exact he ▸ rfl
      · rcases he with rfl | rfl
        · rfl
        · rfl

theorem Event.processStart_eq_false_of_ctl {e : Event} (h : e.isCtl = false) :
    e.isProcessStart = false := by
  cases e <;> simp_all [Event.isCtl, Event.isProcessStart]

theorem Event.poison_eq_false_of_ctl {e : Event} (h : e.isCtl = false) :
    e.isPoison = false := by
  cases e <;> simp_all [Event.isCtl, Event.isPoison]

theorem Event.validatorShutdown_eq_false_of_ctl {e : Event} (h : e.isCtl = false) :
    e.isValidatorShutdown = false := by
  cases e <;> simp_all [Event.isCtl, Event.isValidatorShutdown]

/-- Every event emitted by `_shutdown` is the poison pill or the
validator shutdown. -/
theorem _shutdown_events (env : Env) (k v : Bool) :
    ∀ e ∈ (_shutdown env k v).2,
      e = Event.poisonPill ∨ e = Event.validatorShutdown := by
  intro e he
  unfold _shutdown at he
  split at he
  · split at he
    · simp only [List.mem_singleton] at he
      exact Or.inl he
    · split at he
      · split at he <;>
          (simp only [List.mem_cons, List.mem_singleton, List.not_mem_nil,
            or_false] at he; exact he)
      · simp only [List.mem_singleton] at he
        exact Or.inl he
  · split at he
    · split at he <;>
        (simp only [List.mem_singleton] at he; exact Or.inr he)
    · simp at he

theorem mainLoop_processStart_le (env : Env) :
    ∀ rs : List Record,
      (mainLoop env rs).2.countP Event.isProcessStart ≤ rs.length := by
  intro rs
  induction rs with
  | nil => simp [mainLoop]
  | cons r rest ih =>
    have hpr := process_record_not_ctl env r
    simp only [mainLoop]
    rcases hp : _process_record env r with ⟨res, tr⟩
    rw [hp] at hpr
    have htr : tr.countP Event.isProcessStart = 0 := by
      apply List.countP_eq_zero.mpr
      intro e he
      simp [Event.processStart_eq_false_of_ctl (hpr e he)]
    rcases res with e | u
    · simp only [List.countP_cons, List.length_cons, htr,
        Event.isProcessStart, if_true]
      omega
    · simp only [List.countP_cons, List.countP_append, List.length_cons, htr,
        Event.isProcessStart, if_true]
      have := ih
      omega

/-!
## Claim theorems
-/

/-- C1: for every record, `_record_success_filter` returns `false` if and
only if the stored processed status for the record's identifier equals
`Success`; it returns `true` whenever there is no stored outcome or the
stored status is `Failure`, so prior failures are retried on the next
pass. -/
theorem record_success_filter_spec (env : Env) (r : Record) :
    (_record_success_filter env r = false ↔
      env.fetch_processed_status r.identifier = some "Success") ∧
    ((env.fetch_processed_status r.identifier = none ∨
        env.fetch_processed_status r.identifier = some "Failure") →
      _record_success_filter env r = true) := by
  unfold _record_success_filter
  rcases h : env.fetch_processed_status r.identifier with _ | st
  · simp
  · by_cases hs : st = "Success"
    · subst hs
      simp
    · constructor
      · simp [hs]
      · intro _
        simp [hs]

/-- Witness for `record_success_filter_spec`: with no stored outcome the
filter keeps the record. -/
theorem record_success_filter_spec_witness :
    _record_success_filter envA recA = true :=
  (record_success_filter_spec envA recA).2 (Or.inl rfl)

/-- C5: in one run, the number of records handed to `_process_record`
(one `processStart` event each) never exceeds the configured flow
limit, whatever the upstream record sequence contains. -/
theorem flow_limit_bounds_processed (env : Env) :
    (runMain env).2.countP Event.isProcessStart ≤ env.flow_limit := by
  have key : ∀ start tr0, tr0.countP Event.isProcessStart = 0 →
      (mainAfterWatermark env start tr0).2.countP Event.isProcessStart ≤
        env.flow_limit := by
    intro start tr0 h0
    have hlen :
        (((env.fetch_records_from start).filter
            (_record_success_filter env)).take env.flow_limit).length ≤
          env.flow_limit := by
      rw [List.length_take]
      exact min_le_left _ _
    have hle := mainLoop_processStart_le env
      (((env.fetch_records_from start).filter
          (_record_success_filter env)).take env.flow_limit)
    unfold mainAfterWatermark
    rcases hml : mainLoop env
        (((env.fetch_records_from start).filter
            (_record_success_filter env)).take env.flow_limit) with ⟨res, tr⟩
    rw [hml] at hle
    dsimp only at hle
    have hsh : (_shutdown env true true).2.countP Event.isProcessStart = 0 := by
      apply List.countP_eq_zero.mpr
      intro e he
      rcases _shutdown_events env true true e he with rfl | rfl <;>
        simp [Event.isProcessStart]
    rcases res with e | u <;> simp only [hml, List.countP_append, h0, hsh] <;>
      omega
  unfold runMain
  rcases hw : env.fetch_high_watermark with _ | start
  · rcases hu : env.update_high_watermark env.now with e | u
    · simp [Event.isProcessStart]
    · exact key env.now [.watermarkWrite env.now] (by simp [Event.isProcessStart])
  · exact key start [] (by simp)

/-- C2: whenever `_process_record` completes (success or failure
outcome alike), its trace ends with exactly one processed-outcome write
for the record's identifier followed by the watermark write of the
record's datestamp, and no other store writes occur; and even on the
paths where a collaborator raises mid-way, the trace never contains a
watermark write that is not immediately preceded by this record's
outcome write, so no intermediate state has the watermark advanced past
a record whose outcome is unrecorded. -/
theorem process_record_outcome_before_watermark (env : Env) (r : Record) :
    ((_process_record env r).1 = .ok () →
      ∃ tr0 stored status reason,
        (∀ e ∈ tr0, e.isStore = false) ∧
        (_process_record env r).2 =
          tr0 ++ [Event.outcomeWrite r.identifier stored status reason,
                  Event.watermarkWrite r.datestamp]) ∧
    (∃ tr0, (∀ e ∈ tr0, e.isStore = false) ∧
      ((_process_record env r).2 = tr0 ∨
       (∃ stored status reason,
          (_process_record env r).2 =
            tr0 ++ [Event.outcomeWrite r.identifier stored status reason]) ∨
       (∃ stored status reason,
          (_process_record env r).2 =
            tr0 ++ [Event.outcomeWrite r.identifier stored status reason,
                    Event.watermarkWrite r.datestamp]))) := by
  have hdrv := tryBody_not_driver env r
  rcases htb : tryBody env r with ⟨res, tr⟩
  rw [htb] at hdrv
  have hclean : ∀ e ∈ tr, Event.isStore e = false := fun e he =>
    Event.store_eq_false_of_driver (hdrv e he)
  rcases res with ⟨ec, msg, ex⟩ | m1
  · rcases hdec : _decorate_message_with_error msg (ec.getD "GENERR009") ex.str
      with e2 | msg2
    · have hpr : _process_record env r =
          (.error e2, tr ++ [.decorateCall msg (ec.getD "GENERR009") ex.str]) := by
        simp only [_process_record, htb, hdec]
      constructor
      · intro h
        rw [hpr] at h
        simp at h
      · refine ⟨tr ++ [.decorateCall msg (ec.getD "GENERR009") ex.str],
          fun e he => ?_, Or.inl (by rw [hpr])⟩
        simp only [List.mem_append, List.mem_singleton] at he
        rcases he with he | rfl
        · exact hclean e he
        · rfl
    · have hcl2 : ∀ e ∈ tr ++ [Event.decorateCall msg (ec.getD "GENERR009") ex.str,
          Event.putInvalid msg2], Event.isStore e = false := by
        intro e he
        simp only [List.mem_append, List.mem_cons, List.mem_singleton,
          List.not_mem_nil, or_false] at he
        rcases he with he | rfl | rfl
        · exact hclean e he
        · rfl
        · rfl
      rcases hpi : env.put_invalid_message_on_queue msg2 with e3 | u
      · have hpr : _process_record env r =
            (.error e3, tr ++ [.decorateCall msg (ec.getD "GENERR009") ex.str,
                               .putInvalid msg2]) := by
          simp only [_process_record, htb, hdec, hpi]
        constructor
        · intro h
          rw [hpr] at h
          simp at h
        · exact ⟨_, hcl2, Or.inl (by rw [hpr])⟩
      · have hpr : _process_record env r =
            ((finishRecord env r msg2 "Failure" ex.str).1,
             (tr ++ [.decorateCall msg (ec.getD "GENERR009") ex.str,
                     .putInvalid msg2]) ++
               (finishRecord env r msg2 "Failure" ex.str).2) := by
          simp only [_process_record, htb, hdec, hpi, List.append_assoc]
        constructor
        · intro h
          rw [hpr] at h
          dsimp only at h
          have h2 := finishRecord_ok env r msg2 "Failure" ex.str h
          refine ⟨_, storedOf msg2, "Failure", ex.str, hcl2, ?_⟩
          rw [hpr]
          dsimp only
          rw [h2]
        · rcases finishRecord_trace env r msg2 "Failure" ex.str with hf | hf
          · refine ⟨_, hcl2, Or.inr (Or.inl ⟨storedOf msg2, "Failure", ex.str, ?_⟩)⟩
            rw [hpr]
            dsimp only
            rw [hf]
          · refine ⟨_, hcl2, Or.inr (Or.inr ⟨storedOf msg2, "Failure", ex.str, ?_⟩)⟩
            rw [hpr]
            dsimp only
            rw [hf]
  · have hpr : _process_record env r =
        ((finishRecord env r (some m1) "Success" "-").1,
         tr ++ (finishRecord env r (some m1) "Success" "-").2) := by
      simp only [_process_record, htb]
    constructor
    · intro h
      rw [hpr] at h
      dsimp only at h
      have h2 := finishRecord_ok env r (some m1) "Success" "-" h
      refine ⟨tr, storedOf (some m1), "Success", "-", hclean, ?_⟩
      rw [hpr]
      dsimp only
      rw [h2]
    · rcases finishRecord_trace env r (some m1) "Success" "-" with hf | hf
      · refine ⟨tr, hclean, Or.inr (Or.inl ⟨storedOf (some m1), "Success", "-", ?_⟩)⟩
        rw [hpr]
        dsimp only
        rw [hf]
      · refine ⟨tr, hclean, Or.inr (Or.inr ⟨storedOf (some m1), "Success", "-", ?_⟩)⟩
        rw [hpr]
        dsimp only
        rw [hf]

/-- Witness for `process_record_outcome_before_watermark`: the
all-success environment completes and shows the final outcome write and
watermark write. -/
theorem process_record_outcome_before_watermark_witness :
    ∃ tr0 stored status reason,
      (∀ e ∈ tr0, e.isStore = false) ∧
      (_process_record envA recA).2 =
        tr0 ++ [Event.outcomeWrite recA.identifier stored status reason,
                Event.watermarkWrite recA.datestamp] :=
  (process_record_outcome_before_watermark envA recA).1 rfl

/-- On every failure path, `_process_record` calls
`_decorate_message_with_error` with the current message, the determined
error code and the exception text. -/
theorem decorate_in_trace_of_tryBody_error (env : Env) (r : Record)
    (ec msg : Option String) (ex : Exc) (tr : List Event)
    (htb : tryBody env r = (.error (ec, msg, ex), tr)) :
    Event.decorateCall msg (ec.getD "GENERR009") ex.str ∈
      (_process_record env r).2 := by
  rcases hdec : _decorate_message_with_error msg (ec.getD "GENERR009") ex.str
    with e2 | msg2
  · simp [_process_record, htb, hdec]
  · rcases hpi : env.put_invalid_message_on_queue msg2 with e3 | u
    · simp [_process_record, htb, hdec, hpi]
    · simp [_process_record, htb, hdec, hpi]

/-- C3: the error code attached on a gate failure is `GENERR007`
exactly when the parse-and-re-serialize step failed, `GENERR001` when
schema validation failed, and the catch-all `GENERR009` for any other
failure: a relocation-stage exception that escaped, a generation
failure or a publish failure. -/
theorem process_record_error_codes (env : Env) (r : Record) (code : String)
    (h :
      (∃ s3 tr0 m0, _push_files_to_s3 env r = (.ok s3, tr0) ∧
        env.generate_metadata_create r s3 = .ok m0 ∧ loads m0 = none ∧
        code = "GENERR007") ∨
      (∃ s3 tr0 m0 v e, _push_files_to_s3 env r = (.ok s3, tr0) ∧
        env.generate_metadata_create r s3 = .ok m0 ∧ loads m0 = some v ∧
        env.validate_message (dumps v) = .error e ∧ code = "GENERR001") ∨
      (((∃ e tr0, _push_files_to_s3 env r = (.error e, tr0)) ∨
        (∃ s3 tr0 e, _push_files_to_s3 env r = (.ok s3, tr0) ∧
          env.generate_metadata_create r s3 = .error e) ∨
        (∃ s3 tr0 m0 v e, _push_files_to_s3 env r = (.ok s3, tr0) ∧
          env.generate_metadata_create r s3 = .ok m0 ∧ loads m0 = some v ∧
          env.validate_message (dumps v) = .ok () ∧
          env.put_message_on_queue (dumps v) = .error e)) ∧
       code = "GENERR009")) :
    ∃ m rsn, Event.decorateCall m code rsn ∈ (_process_record env r).2 := by
  rcases h with ⟨s3, tr0, m0, hp, hg, hl, rfl⟩ |
    ⟨s3, tr0, m0, v, e, hp, hg, hl, hv, rfl⟩ | ⟨h9, rfl⟩
  · have htb : tryBody env r =
        (.error (some "GENERR007", some m0,
          .generic (env.jsonDecodeError m0)), tr0) := by
      simp only [tryBody, hp, hg, hl]
    exact ⟨_, _, decorate_in_trace_of_tryBody_error env r _ _ _ _ htb⟩
  · have htb : tryBody env r =
        (.error (some "GENERR001", some (dumps v), e), tr0) := by
      simp only [tryBody, hp, hg, hl, hv]
    exact ⟨_, _, decorate_in_trace_of_tryBody_error env r _ _ _ _ htb⟩
  · rcases h9 with ⟨e, tr0, hp⟩ | ⟨s3, tr0, e, hp, hg⟩ |
      ⟨s3, tr0, m0, v, e, hp, hg, hl, hv, hq⟩
    · have htb : tryBody env r = (.error (none, none, e), tr0) := by
        simp only [tryBody, hp]
      exact ⟨_, _, decorate_in_trace_of_tryBody_error env r _ _ _ _ htb⟩
    · have htb : tryBody env r = (.error (none, none, e), tr0) := by
        simp only [tryBody, hp, hg]
      exact ⟨_, _, decorate_in_trace_of_tryBody_error env r _ _ _ _ htb⟩
    · have htb : tryBody env r =
          (.error (none, some (dumps v), e),
           tr0 ++ [.putMessage (dumps v)]) := by
        simp only [tryBody, hp, hg, hl, hv, hq]
      exact ⟨_, _, decorate_in_trace_of_tryBody_error env r _ _ _ _ htb⟩

/-- An environment whose generated message is not valid JSON. -/
def env007 : Env :=
  { envA with generate_metadata_create := fun _ _ => .ok "not json" }

/-- Witness for `process_record_error_codes`: an unparseable generated
message is decorated with `GENERR007`. -/
theorem process_record_error_codes_witness :
    ∃ m rsn, Event.decorateCall m "GENERR007" rsn ∈
      (_process_record env007 recA).2 :=
  process_record_error_codes env007 recA "GENERR007"
    (Or.inl ⟨[], [], "not json", rfl, rfl, rfl, rfl⟩)

/-- An environment whose message generation raises. -/
def env7 : Env :=
  { envA with
    generate_metadata_create := fun _ _ => .error (.generic "generation failed") }

/-- Counterexample to C7: a failure raised by the Message Assembler's
generation step (`generate_metadata_create`) is decorated with the
catch-all code `GENERR009`, not `GENERR007`: the complete trace of the
record shows the single decoration call carrying `GENERR009`. -/
theorem generation_failure_code_cex :
    (_process_record env7 recA).2 =
      [Event.decorateCall none "GENERR009" "generation failed",
       Event.putInvalid none,
       Event.outcomeWrite "oai:eprints:1" "-" "Failure" "generation failed",
       Event.watermarkWrite "2018-01-01T00:00:00Z"] ∧
    "GENERR009" ≠ "GENERR007" :=
  ⟨rfl, by decide⟩

/-- C7 amended: every failure of the Message Assembler's generation
step is assigned the catch-all error code `GENERR009` on the decorated
error-channel message (`GENERR007` is reserved for the later
parse-and-re-serialize gate). -/
theorem generation_failure_catch_all (env : Env) (r : Record)
    (s3 : List String) (tr0 : List Event) (e : Exc)
    (hp : _push_files_to_s3 env r = (.ok s3, tr0))
    (hg : env.generate_metadata_create r s3 = .error e) :
    Event.decorateCall none "GENERR009" e.str ∈ (_process_record env r).2 := by
  have htb : tryBody env r = (.error (none, none, e), tr0) := by
    simp only [tryBody, hp, hg]
  exact decorate_in_trace_of_tryBody_error env r none none e tr0 htb

/-- Witness for `generation_failure_catch_all`. -/
theorem generation_failure_catch_all_witness :
    Event.decorateCall none "GENERR009" "generation failed" ∈
      (_process_record env7 recA).2 :=
  generation_failure_catch_all env7 recA [] []
    (.generic "generation failed") rfl rfl

/-- Master specification of the relocation loop when every S3 push
succeeds and every removal error is at worst `FileNotFoundError`: the
loop completes, download attempts happen exactly for the HTTP(S)
values, every upload is of a successfully downloaded file, failed
downloads warn and contribute no upload, `FileNotFoundError` removals
warn, and the returned reference list has one entry per upload. -/
theorem pushLoop_spec (env : Env)
    (hpush : ∀ u p, ∃ loc, env.push_to_bucket u p = .ok loc)
    (hrem : ∀ p, env.remove_file p = .ok () ∨
      ∃ m, env.remove_file p = .error (.fileNotFound m)) :
    ∀ ids, ∃ locs tr, pushLoop env ids = (.ok locs, tr) ∧
      (∀ u, Event.downloadAttempt u ∈ tr →
        u ∈ ids ∧
          (startsWithStr u "http://" || startsWithStr u "https://") = true) ∧
      (∀ u p, Event.s3Push u p ∈ tr → env.download_file u = some p) ∧
      (∀ u, u ∈ ids →
        (startsWithStr u "http://" || startsWithStr u "https://") = true →
        env.download_file u = none → Event.warnDownloadFailed u ∈ tr) ∧
      (∀ u p m, u ∈ ids →
        (startsWithStr u "http://" || startsWithStr u "https://") = true →
        env.download_file u = some p →
        env.remove_file p = .error (.fileNotFound m) →
        Event.warnRemoveFailed p ∈ tr) ∧
      locs.length = tr.countP Event.isS3Push := by
  intro ids
  induction ids with
  | nil =>
    exact ⟨[], [], rfl, by simp, by simp, by simp, by simp, by simp⟩
  | cons u rest ih =>
    obtain ⟨locs, tr, hpl, hdl, hsp, hwd, hwr, hlen⟩ := ih
    by_cases hu : (startsWithStr u "http://" || startsWithStr u "https://") = true
    · rcases hd : env.download_file u with _ | path
      · refine ⟨locs, .downloadAttempt u :: .warnDownloadFailed u :: tr,
          ?_, ?_, ?_, ?_, ?_, ?_⟩
        · simp only [pushLoop, hu, if_true, hd, hpl]
        · intro u' h
          simp only [List.mem_cons] at h
          rcases h with h | h | h
          · injection h with h1
            subst h1
            exact ⟨by simp, hu⟩
          · simp at h
          · obtain ⟨hm, hpre⟩ := hdl u' h
            exact ⟨List.mem_cons_of_mem _ hm, hpre⟩
        · intro u' p h
          simp only [List.mem_cons] at h
          rcases h with h | h | h
          · simp at h
          · simp at h
          · exact hsp u' p h
        · intro u' hm hpre hdn
          rcases List.mem_cons.mp hm with rfl | hm'
          · simp
          · exact List.mem_cons_of_mem _ (List.mem_cons_of_mem _ (hwd u' hm' hpre hdn))
        · intro u' p m hm hpre hdn hrm
          rcases List.mem_cons.mp hm with rfl | hm'
          · rw [hd] at hdn
            cases hdn
          · exact List.mem_cons_of_mem _
              (List.mem_cons_of_mem _ (hwr u' p m hm' hpre hdn hrm))
        · simpa [List.countP_cons, Event.isS3Push] using hlen
      · obtain ⟨loc, hpb⟩ := hpush u path
        rcases hrem path with hro | ⟨m0, hrf⟩
        · refine ⟨loc :: locs, .downloadAttempt u :: .s3Push u path :: tr,
            ?_, ?_, ?_, ?_, ?_, ?_⟩
          · simp only [pushLoop, hu, if_true, hd, hpb, hro, hpl]
            rfl
          · intro u' h
            simp only [List.mem_cons] at h
            rcases h with h | h | h
            · injection h with h1
              subst h1
              exact ⟨by simp, hu⟩
            · simp at h
            · obtain ⟨hm, hpre⟩ := hdl u' h
              exact ⟨List.mem_cons_of_mem _ hm, hpre⟩
          · intro u' p h
            simp only [List.mem_cons] at h
            rcases h with h | h | h
            · simp at h
            · injection h with h1 h2
              subst h1
              subst h2
              exact hd
            · exact hsp u' p h
          · intro u' hm hpre hdn
            rcases List.mem_cons.mp hm with rfl | hm'
            · rw [hd] at hdn
              cases hdn
            · exact List.mem_cons_of_mem _
                (List.mem_cons_of_mem _ (hwd u' hm' hpre hdn))
          · intro u' p m hm hpre hdn hrm
            rcases List.mem_cons.mp hm with rfl | hm'
            · rw [hd] at hdn
              injection hdn with h1
              subst h1
              rw [hro] at hrm
              cases hrm
            · exact List.mem_cons_of_mem _
                (List.mem_cons_of_mem _ (hwr u' p m hm' hpre hdn hrm))
          · simpa [List.countP_cons, Event.isS3Push] using hlen
        · refine ⟨loc :: locs,
            .downloadAttempt u :: .s3Push u path :: .warnRemoveFailed path :: tr,
            ?_, ?_, ?_, ?_, ?_, ?_⟩
          · simp only [pushLoop, hu, if_true, hd, hpb, hrf, hpl]
            rfl
          · intro u' h
            simp only [List.mem_cons] at h
            rcases h with h | h | h | h
            · injection h with h1
              subst h1
              exact ⟨by simp, hu⟩
            · simp at h
            · simp at h
            · obtain ⟨hm, hpre⟩ := hdl u' h
              exact ⟨List.mem_cons_of_mem _ hm, hpre⟩
          · intro u' p h
            simp only [List.mem_cons] at h
            rcases h with h | h | h | h
            · simp at h
            · injection h with h1 h2
              subst h1
              subst h2
              exact hd
            · simp at h
            · exact hsp u' p h
          · intro u' hm hpre hdn
            rcases List.mem_cons.mp hm with rfl | hm'
            · rw [hd] at hdn
              cases hdn
            · exact List.mem_cons_of_mem _ (List.mem_cons_of_mem _
                (List.mem_cons_of_mem _ (hwd u' hm' hpre hdn)))
          · intro u' p m hm hpre hdn hrm
            rcases List.mem_cons.mp hm with rfl | hm'
            · rw [hd] at hdn
              injection hdn with h1
              subst h1
              simp
            · exact List.mem_cons_of_mem _ (List.mem_cons_of_mem _
                (List.mem_cons_of_mem _ (hwr u' p m hm' hpre hdn hrm)))
          · simpa [List.countP_cons, Event.isS3Push] using hlen
    · refine ⟨locs, tr, ?_, ?_, hsp, ?_, ?_, hlen⟩
      · simp only [pushLoop, hu, if_false, hpl]
        simp [Bool.not_eq_true] at hu
        simp [hu]
      · intro u' h
        obtain ⟨hm, hpre⟩ := hdl u' h
        exact ⟨List.mem_cons_of_mem _ hm, hpre⟩
      · intro u' hm hpre hdn
        rcases List.mem_cons.mp hm with rfl | hm'
        · exact absurd hpre hu
        · exact hwd u' hm' hpre hdn
      · intro u' p m hm hpre hdn hrm
        rcases List.mem_cons.mp hm with rfl | hm'
        · exact absurd hpre hu
        · exact hwr u' p m hm' hpre hdn hrm

/-- C6: only metadata identifier values beginning with `http://` or
`https://` trigger a download attempt; any other value is skipped
without error; a download that returns no file logs a warning,
contributes no upload and no reference-list entry, and the record still
proceeds (the relocation stage completes normally). -/
theorem push_files_url_gating (env : Env) (r : Record)
    (hpush : ∀ u p, ∃ loc, env.push_to_bucket u p = .ok loc)
    (hrem : ∀ p, env.remove_file p = .ok () ∨
      ∃ m, env.remove_file p = .error (.fileNotFound m)) :
    ∃ locs tr, _push_files_to_s3 env r = (.ok locs, tr) ∧
      (∀ u, Event.downloadAttempt u ∈ tr →
        u ∈ r.metadataIdentifiers ∧
          (startsWithStr u "http://" || startsWithStr u "https://") = true) ∧
      (∀ u, env.download_file u = none → ∀ p, Event.s3Push u p ∉ tr) ∧
      (∀ u, u ∈ r.metadataIdentifiers →
        (startsWithStr u "http://" || startsWithStr u "https://") = true →
        env.download_file u = none → Event.warnDownloadFailed u ∈ tr) ∧
      locs.length = tr.countP Event.isS3Push := by
  obtain ⟨locs, tr, h1, h2, h3, h4, _, h6⟩ :=
    pushLoop_spec env hpush hrem r.metadataIdentifiers
  refine ⟨locs, tr, h1, h2, ?_, h4, h6⟩
  intro u hdn p hmem
  have h := h3 u p hmem
  rw [hdn] at h
  cases h

/-- Witness for `push_files_url_gating` on a record with one HTTPS URL
and one plain-text metadata identifier. -/
theorem push_files_url_gating_witness :
    ∃ locs tr, _push_files_to_s3 envA recB = (.ok locs, tr) ∧
      (∀ u, Event.downloadAttempt u ∈ tr →
        u ∈ recB.metadataIdentifiers ∧
          (startsWithStr u "http://" || startsWithStr u "https://") = true) ∧
      (∀ u, envA.download_file u = none → ∀ p, Event.s3Push u p ∉ tr) ∧
      (∀ u, u ∈ recB.metadataIdentifiers →
        (startsWithStr u "http://" || startsWithStr u "https://") = true →
        envA.download_file u = none → Event.warnDownloadFailed u ∈ tr) ∧
      locs.length = tr.countP Event.isS3Push :=
  push_files_url_gating envA recB
    (fun u _ => ⟨"s3://bucket/" ++ u, rfl⟩) (fun _ => Or.inl rfl)

/-- An environment whose local-file removal raises `PermissionError`. -/
def env8 : Env :=
  { envA with
    remove_file := fun _ =>
      .error (.generic "PermissionError: [Errno 13] Permission denied") }

/-- Counterexample to C8: a deletion error that is not
`FileNotFoundError` (here a `PermissionError`) is not swallowed: the
relocation step returns the exception, which therefore propagates out
of `_push_files_to_s3`. -/
theorem remove_error_propagates_cex :
    _push_files_to_s3 env8 recB =
      (.error (.generic "PermissionError: [Errno 13] Permission denied"),
       [.downloadAttempt "https://eprints.example/file.pdf",
        .s3Push "https://eprints.example/file.pdf" "/tmp/file.pdf"]) := rfl

/-- C8 amended: after a successful download and upload, a deletion
failure of the `FileNotFoundError` kind is logged and swallowed: when
every deletion error is of that kind (and uploads succeed) no exception
propagates out of the relocation step and each such failure logs its
warning.  Deletion errors of any other kind propagate. -/
theorem remove_file_not_found_swallowed (env : Env) (r : Record)
    (hpush : ∀ u p, ∃ loc, env.push_to_bucket u p = .ok loc)
    (hrem : ∀ p, env.remove_file p = .ok () ∨
      ∃ m, env.remove_file p = .error (.fileNotFound m)) :
    ∃ locs tr, _push_files_to_s3 env r = (.ok locs, tr) ∧
      (∀ u p m, u ∈ r.metadataIdentifiers →
        (startsWithStr u "http://" || startsWithStr u "https://") = true →
        env.download_file u = some p →
        env.remove_file p = .error (.fileNotFound m) →
        Event.warnRemoveFailed p ∈ tr) := by
  obtain ⟨locs, tr, h1, _, _, _, h5, _⟩ :=
    pushLoop_spec env hpush hrem r.metadataIdentifiers
  exact ⟨locs, tr, h1, h5⟩

/-- An environment whose local-file removal raises `FileNotFoundError`. -/
def env8b : Env :=
  { envA with remove_file := fun _ => .error (.fileNotFound "file gone") }

/-- Witness for `remove_file_not_found_swallowed`. -/
theorem remove_file_not_found_swallowed_witness :
    ∃ locs tr, _push_files_to_s3 env8b recB = (.ok locs, tr) ∧
      (∀ u p m, u ∈ recB.metadataIdentifiers →
        (startsWithStr u "http://" || startsWithStr u "https://") = true →
        env8b.download_file u = some p →
        env8b.remove_file p = .error (.fileNotFound m) →
        Event.warnRemoveFailed p ∈ tr) :=
  remove_file_not_found_swallowed env8b recB
    (fun u _ => ⟨"s3://bucket/" ++ u, rfl⟩)
    (fun _ => Or.inr ⟨"file gone", rfl⟩)

/-- C10: if the S3 upload of a successfully downloaded file raises, the
exception escapes `_push_files_to_s3` (only a download failure is
handled locally), aborting the record: the failure is decorated with
the catch-all `GENERR009` and the record's outcome is written as
`Failure` with the exception text. -/
theorem upload_failure_aborts_record (env : Env) (r : Record)
    (u p : String) (e : Exc) (rest : List String)
    (hids : r.metadataIdentifiers = u :: rest)
    (hu : (startsWithStr u "http://" || startsWithStr u "https://") = true)
    (hd : env.download_file u = some p)
    (hpb : env.push_to_bucket u p = .error e)
    (hinv : env.put_invalid_message_on_queue none = .ok ()) :
    _push_files_to_s3 env r = (.error e, [.downloadAttempt u, .s3Push u p]) ∧
    Event.decorateCall none "GENERR009" e.str ∈ (_process_record env r).2 ∧
    Event.outcomeWrite r.identifier "-" "Failure" e.str ∈
      (_process_record env r).2 := by
  have hpf : _push_files_to_s3 env r =
      (.error e, [.downloadAttempt u, .s3Push u p]) := by
    unfold _push_files_to_s3
    rw [hids]
    simp only [pushLoop, hu, if_true, hd, hpb]
  have htb : tryBody env r =
      (.error (none, none, e), [.downloadAttempt u, .s3Push u p]) := by
    simp only [tryBody, hpf]
  refine ⟨hpf, decorate_in_trace_of_tryBody_error env r none none e _ htb, ?_⟩
  have hdec : _decorate_message_with_error none "GENERR009" e.str = .ok none := rfl
  have hpr : _process_record env r =
      ((finishRecord env r none "Failure" e.str).1,
       [.downloadAttempt u, .s3Push u p] ++
         [.decorateCall none "GENERR009" e.str, .putInvalid none] ++
         (finishRecord env r none "Failure" e.str).2) := by
    simp only [_process_record, htb, Option.getD_none, hdec, hinv]
  rw [hpr]
  dsimp only
  rcases finishRecord_trace env r none "Failure" e.str with hf | hf <;>
    rw [hf] <;> simp [storedOf]

/-- An environment whose S3 upload raises. -/
def env10 : Env :=
  { envA with push_to_bucket := fun _ _ => .error (.generic "S3 upload failed") }

/-- Witness for `upload_failure_aborts_record`. -/
theorem upload_failure_aborts_record_witness :
    _push_files_to_s3 env10 recB =
      (.error (.generic "S3 upload failed"),
       [.downloadAttempt "https://eprints.example/file.pdf",
        .s3Push "https://eprints.example/file.pdf" "/tmp/file.pdf"]) ∧
    Event.decorateCall none "GENERR009" "S3 upload failed" ∈
      (_process_record env10 recB).2 ∧
    Event.outcomeWrite recB.identifier "-" "Failure" "S3 upload failed" ∈
      (_process_record env10 recB).2 :=
  upload_failure_aborts_record env10 recB "https://eprints.example/file.pdf"
    "/tmp/file.pdf" (.generic "S3 upload failed") ["Smith 2017, Some Article"]
    rfl (by decide) rfl rfl rfl

theorem lookupJ_setKey_self (fs : List (String × JVal)) (k : String) (v : JVal) :
    lookupJ (setKey fs k v) k = some v := by
  induction fs with
  | nil => simp [setKey, lookupJ]
  | cons p rest ih =>
    obtain ⟨k', v'⟩ := p
    by_cases h : k' = k
    · subst h
      simp [setKey, lookupJ]
    · simp [setKey, lookupJ, h, ih]

theorem lookupJ_setKey_ne (fs : List (String × JVal)) (k q : String) (v : JVal)
    (h : q ≠ k) : lookupJ (setKey fs k v) q = lookupJ fs q := by
  have hne : k ≠ q := fun hh => h hh.symm
  induction fs with
  | nil => simp [setKey, lookupJ, hne]
  | cons p rest ih =>
    obtain ⟨k', v'⟩ := p
    by_cases hk : k' = k
    · subst hk
      simp [setKey, lookupJ, hne]
    · simp [setKey, lookupJ, hk, ih]

/-- An environment whose schema validation rejects with text `boom`. -/
def env4 : Env :=
  { envA with validate_message := fun _ => .error (.generic "boom") }

/-- The message `_decorate_message_with_error` produces for `env4`:
the `errorMessage` member holds the JSON-quoted exception text. -/
def out4 : String :=
  "\x7b\"messageHeader\": \x7b\"errorCode\": \"GENERR001\", \"errorMessage\": \"\\\"boom\\\"\"\x7d\x7d"

/-- An environment whose generated message is a JSON object with a
non-object `messageHeader`, and whose schema validation rejects with
text `boom`. -/
def env4b : Env :=
  { envA with
    generate_metadata_create := fun _ _ => .ok "\x7b\"messageHeader\": \"x\"\x7d"
    validate_message := fun _ => .error (.generic "boom") }

/-- Counterexample to C4, two concrete runs.  (1) Double-encoded
reason: for a parseable object message failing validation with
exception text `boom`, the published message carries `errorMessage`
equal to the JSON-serialization `"boom"` (quotes included) of the
exception text — `json.dumps(str(e))` — not the text itself.
(2) Silent drop: for a message that parses as structured data but whose
`messageHeader` member is not an object, the decoration's item
assignment raises `TypeError`, the exception escapes `_process_record`,
and nothing is published on the error channel — the complete trace of
the run contains no publish event at all. -/
theorem decorate_reason_double_encoded_cex :
    (Event.putInvalid (some out4) ∈ (_process_record env4 recA).2 ∧
     (∃ fs, loads out4 = some (.jobj fs) ∧
       ∃ hs, lookupJ fs "messageHeader" = some (.jobj hs) ∧
         lookupJ hs "errorMessage" = some (.jstr "\"boom\"")) ∧
     "\"boom\"" ≠ "boom") ∧
    (loads "\x7b\"messageHeader\": \"x\"\x7d" =
       some (.jobj [("messageHeader", .jstr "x")]) ∧
     _process_record env4b recA =
       (.error (.generic "TypeError"),
        [Event.decorateCall (some "\x7b\"messageHeader\": \"x\"\x7d")
           "GENERR001" "boom"])) := by
  exact ⟨⟨by decide, ⟨_, rfl, _, rfl, rfl⟩, by decide⟩, rfl, rfl⟩

/-- C4 amended: on a gate failure, (1) when the raw message parses as a
JSON object whose `messageHeader` member, if present, is itself an
object, the decorated message is the serialization of that object with
a `messageHeader` carrying `errorCode` equal to the determined code and
`errorMessage` equal to the JSON-serialization of the exception text
(which parses back to the text); (2) when the raw message cannot be
parsed it is returned unmodified (with a logged warning); (3) when the
raw message parses as any other structured data — a non-object, or an
object whose existing `messageHeader` is not an object — the
decoration's item assignment raises `TypeError`, so the exception
escapes and nothing is published (second counterexample run); and
(4) whatever the decoration returns is published on the error channel
on every failure path where decoration and publishing succeed. -/
theorem decorate_error_header_spec (env : Env) (r : Record) :
    (∀ m code reason fs,
      loads m = some (.jobj fs) →
      (lookupJ fs "messageHeader" = none ∨
        ∃ hs, lookupJ fs "messageHeader" = some (.jobj hs)) →
      ∃ fs' hs',
        _decorate_message_with_error (some m) code reason =
          .ok (some (dumps (.jobj fs'))) ∧
        lookupJ fs' "messageHeader" = some (.jobj hs') ∧
        lookupJ hs' "errorCode" = some (.jstr code) ∧
        lookupJ hs' "errorMessage" = some (.jstr (encodeJString reason))) ∧
    (∀ m code reason, loads m = none →
      _decorate_message_with_error (some m) code reason = .ok (some m)) ∧
    (∀ m code reason v, loads m = some v →
      ((∀ fs, v ≠ JVal.jobj fs) ∨
        (∃ fs h, v = JVal.jobj fs ∧ lookupJ fs "messageHeader" = some h ∧
          ∀ hs, h ≠ JVal.jobj hs)) →
      _decorate_message_with_error (some m) code reason =
        .error (.generic "TypeError")) ∧
    (∀ ec msg e tr0 m2,
      tryBody env r = (.error (ec, msg, e), tr0) →
      _decorate_message_with_error msg (ec.getD "GENERR009") e.str = .ok m2 →
      env.put_invalid_message_on_queue m2 = .ok () →
      Event.putInvalid m2 ∈ (_process_record env r).2) := by
  refine ⟨?_, ?_, ?_, ?_⟩
  · intro m code reason fs hload hh
    have hcode : "errorCode" ≠ "errorMessage" := by decide
    rcases hh with hh | ⟨hs, hh⟩
    · refine ⟨setKey (setKey fs "messageHeader" (.jobj []))
          "messageHeader"
          (.jobj (setKey (setKey [] "errorCode" (.jstr code))
            "errorMessage" (.jstr (encodeJString reason)))),
        setKey (setKey [] "errorCode" (.jstr code))
          "errorMessage" (.jstr (encodeJString reason)), ?_, ?_, ?_, ?_⟩
      · simp only [_decorate_message_with_error, hload, hh, Option.isSome_none,
          Bool.false_eq_true, if_false, lookupJ_setKey_self]
      · exact lookupJ_setKey_self _ _ _
      · rw [lookupJ_setKey_ne _ _ _ _ hcode]
        exact lookupJ_setKey_self _ _ _
      · exact lookupJ_setKey_self _ _ _
    · refine ⟨setKey fs "messageHeader"
          (.jobj (setKey (setKey hs "errorCode" (.jstr code))
            "errorMessage" (.jstr (encodeJString reason)))),
        setKey (setKey hs "errorCode" (.jstr code))
          "errorMessage" (.jstr (encodeJString reason)), ?_, ?_, ?_, ?_⟩
      · simp only [_decorate_message_with_error, hload, hh, Option.isSome_some,
          if_true]
      · exact lookupJ_setKey_self _ _ _
      · rw [lookupJ_setKey_ne _ _ _ _ hcode]
        exact lookupJ_setKey_self _ _ _
      · exact lookupJ_setKey_self _ _ _
  · intro m code reason hload
    simp only [_decorate_message_with_error, hload]
  · intro m code reason v hload hbad
    rcases hbad with hnotobj | ⟨fs, h, rfl, hh, hnot⟩
    · cases v with
      | jobj fs => exact absurd rfl (hnotobj fs)
      | jnull => simp only [_decorate_message_with_error, hload]
      | jbool b => simp only [_decorate_message_with_error, hload]
      | jnum raw => simp only [_decorate_message_with_error, hload]
      | jstr s => simp only [_decorate_message_with_error, hload]
      | jarr xs => simp only [_decorate_message_with_error, hload]
    · cases h with
      | jobj hs => exact absurd rfl (hnot hs)
      | jnull =>
        simp only [_decorate_message_with_error, hload, hh, Option.isSome_some,
          if_true]
      | jbool b =>
        simp only [_decorate_message_with_error, hload, hh, Option.isSome_some,
          if_true]
      | jnum raw =>
        simp only [_decorate_message_with_error, hload, hh, Option.isSome_some,
          if_true]
      | jstr s =>
        simp only [_decorate_message_with_error, hload, hh, Option.isSome_some,
          if_true]
      | jarr xs =>
        simp only [_decorate_message_with_error, hload, hh, Option.isSome_some,
          if_true]
  · intro ec msg e tr0 m2 htb hdec hpi
    simp [_process_record, htb, hdec, hpi]

/-- Witness for `decorate_error_header_spec`: decorating the message
`\x7b\x7d` (an object without a header) adds the header with the code and
the serialized reason. -/
theorem decorate_error_header_spec_witness :
    ∃ fs' hs',
      _decorate_message_with_error (some "\x7b\x7d") "GENERR009" "boom" =
        .ok (some (dumps (.jobj fs'))) ∧
      lookupJ fs' "messageHeader" = some (.jobj hs') ∧
      lookupJ hs' "errorCode" = some (.jstr "GENERR009") ∧
      lookupJ hs' "errorMessage" = some (.jstr (encodeJString "boom")) :=
  (decorate_error_header_spec envA recA).1 "\x7b\x7d" "GENERR009" "boom" []
    rfl (Or.inl rfl)

/-- The record loop emits neither the poison pill nor the validator
shutdown. -/
theorem mainLoop_no_shutdown (env : Env) :
    ∀ rs, ∀ e ∈ (mainLoop env rs).2,
      e.isPoison = false ∧ e.isValidatorShutdown = false := by
  intro rs
  induction rs with
  | nil => intro e he; simp [mainLoop] at he
  | cons r rest ih =>
    intro e he
    have hpr := process_record_not_ctl env r
    simp only [mainLoop] at he
    rcases hp : _process_record env r with ⟨res, tr⟩
    rw [hp] at he hpr
    rcases res with er | u <;> simp only [List.mem_cons, List.mem_append] at he
    · rcases he with rfl | he
      · exact ⟨rfl, rfl⟩
      · have h := hpr e he
        exact ⟨Event.poison_eq_false_of_ctl h,
          Event.validatorShutdown_eq_false_of_ctl h⟩
    · rcases he with rfl | he | he
      · exact ⟨rfl, rfl⟩
      · have h := hpr e he
        exact ⟨Event.poison_eq_false_of_ctl h,
          Event.validatorShutdown_eq_false_of_ctl h⟩
      · exact ih e he

/-- Counts of shutdown events through `mainAfterWatermark`: one of each
when the loop completes (shutdown collaborators healthy), none when
the loop escapes with an exception. -/
theorem mainAfterWatermark_shutdown_counts (env : Env)
    (hp : env.put_poison_result = .ok ())
    (hv : env.validator_shutdown_result = .ok ())
    (start : String) (tr0 : List Event)
    (h0p : tr0.countP Event.isPoison = 0)
    (h0v : tr0.countP Event.isValidatorShutdown = 0) :
    ((mainAfterWatermark env start tr0).1 = .ok () ∧
      (mainAfterWatermark env start tr0).2.countP Event.isPoison = 1 ∧
      (mainAfterWatermark env start tr0).2.countP Event.isValidatorShutdown = 1) ∨
    ((∃ er, (mainAfterWatermark env start tr0).1 = .error er) ∧
      (mainAfterWatermark env start tr0).2.countP Event.isPoison = 0 ∧
      (mainAfterWatermark env start tr0).2.countP Event.isValidatorShutdown = 0) := by
  have hshut : _shutdown env true true =
      (.ok (), [.poisonPill, .validatorShutdown]) := by
    simp [_shutdown, hp, hv]
  have hml := mainLoop_no_shutdown env
    (((env.fetch_records_from start).filter
        (_record_success_filter env)).take env.flow_limit)
  unfold mainAfterWatermark
  rcases hm : mainLoop env
      (((env.fetch_records_from start).filter
          (_record_success_filter env)).take env.flow_limit) with ⟨res, tr⟩
  rw [hm] at hml
  have htrp : tr.countP Event.isPoison = 0 :=
    List.countP_eq_zero.mpr (fun e he => by simp [(hml e he).1])
  have htrv : tr.countP Event.isValidatorShutdown = 0 :=
    List.countP_eq_zero.mpr (fun e he => by simp [(hml e he).2])
  rcases res with er | u
  · right
    refine ⟨⟨er, by simp [hm]⟩, ?_, ?_⟩ <;>
      simp [hm, List.countP_append, h0p, h0v, htrp, htrv]
  · left
    refine ⟨by simp [hm, hshut], ?_, ?_⟩ <;>
      simp [hm, hshut, List.countP_append, List.countP_cons, h0p, h0v,
        htrp, htrv, Event.isPoison, Event.isValidatorShutdown]

/-- C9: the shutdown sequence runs exactly once per process — exactly
one poison-pill publish and one validator shutdown — on the
normal-completion path and on the unhandled-error path alike (when the
shutdown collaborators themselves succeed), and `_shutdown` is safe to
invoke with the queue client or the validator still unset. -/
theorem shutdown_exactly_once (env : Env)
    (hp : env.put_poison_result = .ok ())
    (hv : env.validator_shutdown_result = .ok ()) :
    (mainGuarded env).2.countP Event.isPoison = 1 ∧
    (mainGuarded env).2.countP Event.isValidatorShutdown = 1 ∧
    _shutdown env false false = (.ok (), []) ∧
    _shutdown env true false = (.ok (), [.poisonPill]) ∧
    _shutdown env false true = (.ok (), [.validatorShutdown]) := by
  have hshut : _shutdown env true true =
      (.ok (), [.poisonPill, .validatorShutdown]) := by
    simp [_shutdown, hp, hv]
  have key : (mainGuarded env).2.countP Event.isPoison = 1 ∧
      (mainGuarded env).2.countP Event.isValidatorShutdown = 1 := by
    unfold mainGuarded runMain
    rcases hw : env.fetch_high_watermark with _ | start
    · rcases hu : env.update_high_watermark env.now with er | u2
      · simp [hshut, List.countP_append, List.countP_cons,
          Event.isPoison, Event.isValidatorShutdown]
      · rcases mainAfterWatermark_shutdown_counts env hp hv env.now
          [.watermarkWrite env.now] (by simp [Event.isPoison])
          (by simp [Event.isValidatorShutdown]) with ⟨h1, h2, h3⟩ | ⟨⟨er, h1⟩, h2, h3⟩
        · rcases ha : mainAfterWatermark env env.now
              [Event.watermarkWrite env.now] with ⟨res, tr⟩
          rw [ha] at h1 h2 h3
          dsimp only at h1 h2 h3
          subst h1
          simp [ha, h2, h3]
        · rcases ha : mainAfterWatermark env env.now
              [Event.watermarkWrite env.now] with ⟨res, tr⟩
          rw [ha] at h1 h2 h3
          dsimp only at h1 h2 h3
          subst h1
          simp [ha, hshut, List.countP_append, List.countP_cons, h2, h3,
            Event.isPoison, Event.isValidatorShutdown]
    · rcases mainAfterWatermark_shutdown_counts env hp hv start []
        (by simp) (by simp) with ⟨h1, h2, h3⟩ | ⟨⟨er, h1⟩, h2, h3⟩
      · rcases ha : mainAfterWatermark env start [] with ⟨res, tr⟩
        rw [ha] at h1 h2 h3
        dsimp only at h1 h2 h3
        subst h1
        simp [ha, h2, h3]
      · rcases ha : mainAfterWatermark env start [] with ⟨res, tr⟩
        rw [ha] at h1 h2 h3
        dsimp only at h1 h2 h3
        subst h1
        simp [ha, hshut, List.countP_append, List.countP_cons, h2, h3,
          Event.isPoison, Event.isValidatorShutdown]
  refine ⟨key.1, key.2, by simp [_shutdown], by simp [_shutdown, hp],
    by simp [_shutdown, hv]⟩

/-- Witness for `shutdown_exactly_once` in the all-success environment. -/
theorem shutdown_exactly_once_witness :
    (mainGuarded envA).2.countP Event.isPoison = 1 ∧
    (mainGuarded envA).2.countP Event.isValidatorShutdown = 1 ∧
    _shutdown envA false false = (.ok (), []) ∧
    _shutdown envA true false = (.ok (), [.poisonPill]) ∧
    _shutdown envA false true = (.ok (), [.validatorShutdown]) :=
  shutdown_exactly_once envA rfl rfl
